import Mathlib

set_option maxHeartbeats 1000000
set_option maxRecDepth 8000

/- Shallow embedding of `src/webserver.py`, a minimal thread-per-connection
HTTP/1.1 server.  Byte sequences are `List Nat`, Python `str` values are
Lean `String`s, and the Python standard-library routines the source calls
(`os.path.normpath`, `urllib.parse.unquote`, `urllib.parse.parse_qs`,
`mimetypes.guess_type`, the UTF-8 codecs) are modelled as executable Lean
functions below, each documented with the library behaviour it mirrors. -/

/-- Python whitespace test used by `str.split()` (no argument) and
`str.strip()`: space, tab, newline, carriage return, vertical tab, form
feed. -/
def pyWs (c : Char) : Bool :=
  c == ' ' || c == '\t' || c == '\n' || c == '\r' || c.toNat == 11 || c.toNat == 12

/-- Split a character list at every character satisfying `p`, keeping empty
pieces, exactly like Python `str.split(sep)` for a one-character separator
(when `p` tests for that character). Always returns a non-empty list. -/
def splitIfChar (p : Char → Bool) : List Char → List (List Char)
  | [] => [[]]
  | c :: rest =>
    match splitIfChar p rest with
    | [] => [[]]
    | piece :: pieces =>
      if p c then [] :: piece :: pieces else (c :: piece) :: pieces

/-- Python `str.split(sep)` for a one-character separator `sep`. -/
def splitChar (sep : Char) (l : List Char) : List (List Char) :=
  splitIfChar (fun c => c == sep) l

/-- Join character-list pieces with a one-character separator, the inverse
direction of `splitChar` (Python `sep.join`). -/
def intercalateChar (sep : Char) : List (List Char) → List Char
  | [] => []
  | [x] => x
  | x :: y :: rest => x ++ sep :: intercalateChar sep (y :: rest)

/-- Index of the first occurrence of `pat` inside `l` (Python `str.find`),
`none` when `pat` never occurs. -/
def findSub (pat : List Char) : List Char → Option Nat
  | [] => if pat.isPrefixOf ([] : List Char) then some 0 else none
  | c :: rest =>
    if pat.isPrefixOf (c :: rest) then some 0
    else (findSub pat rest).map (fun i => i + 1)

/-- Python `s.startswith(p)`. -/
def pyStartswith (s p : String) : Bool := p.data.isPrefixOf s.data

/-- Python `s.endswith(p)`. -/
def pyEndswith (s p : String) : Bool := p.data.isSuffixOf s.data

/-- Python `s.split(sep, 1)`: split at the first occurrence of `sep` only;
`[s]` when `sep` does not occur. -/
def pySplit1 (sep s : String) : List String :=
  match findSub sep.data s.data with
  | none => [s]
  | some i => [String.mk (s.data.take i), String.mk (s.data.drop (i + sep.data.length))]

/-- Python `s.split(sep)` for a one-character separator, as `String`s. -/
def pySplitChar (sep : Char) (s : String) : List String :=
  (splitChar sep s.data).map String.mk

/-- Python `request.split('\n')[0]` (the split is never empty). -/
def pyFirstLine (s : String) : String := (pySplitChar '\n' s).headD ""

/-- Python `str.strip()` with the default whitespace set. -/
def pyStrip (s : String) : String :=
  String.mk (((s.data.dropWhile pyWs).reverse.dropWhile pyWs).reverse)

/-- Python `str.split()` with no argument: split on runs of whitespace and
discard empty tokens. -/
def pySplitWs (s : String) : List String :=
  ((splitIfChar pyWs s.data).filter (fun t => t ≠ [])).map String.mk

/-- Python `sep.join(parts)`. -/
def pyJoin (sep : String) : List String → String
  | [] => ""
  | [x] => x
  | x :: y :: rest => x ++ sep ++ pyJoin sep (y :: rest)

/-- Parse a non-empty all-digit string as a decimal number (the shape
`int()` accepts for the numerals this development needs). -/
def strToNat (s : String) : Option Nat :=
  if s.data ≠ [] ∧ s.data.all Char.isDigit then
    some (s.data.foldl (fun n c => 10 * n + (c.toNat - 48)) 0)
  else none

/-- UTF-8 encoding of one scalar value (the bytes Python's `str.encode`
produces for the character). -/
def utf8EncodeCharNat (c : Char) : List Nat :=
  let n := c.toNat
  if n < 128 then [n]
  else if n < 2048 then [192 + n / 64, 128 + n % 64]
  else if n < 65536 then [224 + n / 4096, 128 + (n / 64) % 64, 128 + n % 64]
  else [240 + n / 262144, 128 + (n / 4096) % 64, 128 + (n / 64) % 64, 128 + n % 64]

/-- Python `s.encode('utf-8')` as a byte list. -/
def utf8Encode (s : String) : List Nat :=
  s.data.foldr (fun c acc => utf8EncodeCharNat c ++ acc) []

/-- Continuation-byte test for the UTF-8 decoders below. -/
def utf8Cont (x : Nat) : Bool := 128 ≤ x && x ≤ 191

/-- Python `bytes.decode('utf-8')` with the default strict error handling:
`none` models the `UnicodeDecodeError` the source's `recv(...).decode`
raises on invalid input.  The lead-dependent ranges reject overlong forms,
surrogates and values above U+10FFFF, as CPython's codec does. -/
def utf8DecodeStrictChars : List Nat → Option (List Char)
  | [] => some []
  | b :: l =>
    if b ≤ 127 then (utf8DecodeStrictChars l).map (fun cs => Char.ofNat b :: cs)
    else if 194 ≤ b && b ≤ 223 then
      match l with
      | b1 :: l1 =>
        if utf8Cont b1 then
          (utf8DecodeStrictChars l1).map (fun cs => Char.ofNat ((b - 192) * 64 + (b1 - 128)) :: cs)
        else none
      | [] => none
    else if 224 ≤ b && b ≤ 239 then
      match l with
      | b1 :: l1 =>
        if (if b == 224 then 160 else 128) ≤ b1 && b1 ≤ (if b == 237 then 159 else 191) then
          match l1 with
          | b2 :: l2 =>
            if utf8Cont b2 then
              (utf8DecodeStrictChars l2).map
                (fun cs => Char.ofNat ((b - 224) * 4096 + (b1 - 128) * 64 + (b2 - 128)) :: cs)
            else none
          | [] => none
        else none
      | [] => none
    else if 240 ≤ b && b ≤ 244 then
      match l with
      | b1 :: l1 =>
        if (if b == 240 then 144 else 128) ≤ b1 && b1 ≤ (if b == 244 then 143 else 191) then
          match l1 with
          | b2 :: l2 =>
            if utf8Cont b2 then
              match l2 with
              | b3 :: l3 =>
                if utf8Cont b3 then
                  (utf8DecodeStrictChars l3).map (fun cs =>
                    Char.ofNat ((b - 240) * 262144 + (b1 - 128) * 4096 + (b2 - 128) * 64 + (b3 - 128)) :: cs)
                else none
              | [] => none
            else none
          | [] => none
        else none
      | [] => none
    else none

/-- Python `bytes.decode('utf-8')`, strict errors, producing a `String`. -/
def utf8DecodeStrict (raw : List Nat) : Option String :=
  (utf8DecodeStrictChars raw).map String.mk

/-- Worker for `utf8DecodeReplace`, structurally recursive on a fuel
counter; every step consumes at least one byte, so fuel equal to the input
length makes the zero-fuel case unreachable. -/
def utf8DecodeReplaceGo : Nat → List Nat → List Char
  | 0, _ => []
  | _, [] => []
  | fuel + 1, b :: l =>
    if b ≤ 127 then Char.ofNat b :: utf8DecodeReplaceGo fuel l
    else if 194 ≤ b && b ≤ 223 then
      match l with
      | b1 :: l1 =>
        if utf8Cont b1 then Char.ofNat ((b - 192) * 64 + (b1 - 128)) :: utf8DecodeReplaceGo fuel l1
        else Char.ofNat 65533 :: utf8DecodeReplaceGo fuel l
      | [] => [Char.ofNat 65533]
    else if 224 ≤ b && b ≤ 239 then
      match l with
      | b1 :: l1 =>
        if (if b == 224 then 160 else 128) ≤ b1 && b1 ≤ (if b == 237 then 159 else 191) then
          match l1 with
          | b2 :: l2 =>
            if utf8Cont b2 then
              Char.ofNat ((b - 224) * 4096 + (b1 - 128) * 64 + (b2 - 128)) :: utf8DecodeReplaceGo fuel l2
            else Char.ofNat 65533 :: utf8DecodeReplaceGo fuel l1
          | [] => [Char.ofNat 65533]
        else Char.ofNat 65533 :: utf8DecodeReplaceGo fuel l
      | [] => [Char.ofNat 65533]
    else if 240 ≤ b && b ≤ 244 then
      match l with
      | b1 :: l1 =>
        if (if b == 240 then 144 else 128) ≤ b1 && b1 ≤ (if b == 244 then 143 else 191) then
          match l1 with
          | b2 :: l2 =>
            if utf8Cont b2 then
              match l2 with
              | b3 :: l3 =>
                if utf8Cont b3 then
                  Char.ofNat ((b - 240) * 262144 + (b1 - 128) * 4096 + (b2 - 128) * 64 + (b3 - 128))
                    :: utf8DecodeReplaceGo fuel l3
                else Char.ofNat 65533 :: utf8DecodeReplaceGo fuel l2
              | [] => [Char.ofNat 65533]
            else Char.ofNat 65533 :: utf8DecodeReplaceGo fuel l1
          | [] => [Char.ofNat 65533]
        else Char.ofNat 65533 :: utf8DecodeReplaceGo fuel l
      | [] => [Char.ofNat 65533]
    else Char.ofNat 65533 :: utf8DecodeReplaceGo fuel l

/-- Python `bytes.decode('utf-8', errors='replace')`: each maximal invalid
subpart becomes one U+FFFD and decoding resumes at the following byte.
Used by `urllib.parse.unquote`. -/
def utf8DecodeReplace (l : List Nat) : List Char := utf8DecodeReplaceGo l.length l

/-- Value of a hexadecimal digit, as `%xx` escapes accept them. -/
def hexVal (c : Char) : Option Nat :=
  if '0' ≤ c ∧ c ≤ '9' then some (c.toNat - 48)
  else if 'a' ≤ c ∧ c ≤ 'f' then some (c.toNat - 87)
  else if 'A' ≤ c ∧ c ≤ 'F' then some (c.toNat - 55)
  else none

/-- Token stream for `urllib.parse.unquote`: a `%xx` escape becomes a raw
byte, anything else stays a literal character (a `%` not followed by two
hex digits is literal, as in CPython). -/
inductive PctTok where
  | lit (c : Char)
  | byte (b : Nat)
deriving DecidableEq

def isPctByte : PctTok → Bool
  | PctTok.byte _ => true
  | PctTok.lit _ => false

def pctByteVal : PctTok → Nat
  | PctTok.byte b => b
  | PctTok.lit _ => 0

/-- Worker for `pctTokens`, structurally recursive on a fuel counter;
every step consumes at least one character, so fuel equal to the input
length makes the zero-fuel case unreachable. -/
def pctTokensGo : Nat → List Char → List PctTok
  | 0, _ => []
  | _, [] => []
  | fuel + 1, '%' :: h1 :: h2 :: rest =>
    match hexVal h1, hexVal h2 with
    | some a, some b => PctTok.byte (16 * a + b) :: pctTokensGo fuel rest
    | _, _ => PctTok.lit '%' :: pctTokensGo fuel (h1 :: h2 :: rest)
  | fuel + 1, c :: rest => PctTok.lit c :: pctTokensGo fuel rest

def pctTokens (l : List Char) : List PctTok := pctTokensGo l.length l

/-- Decode a `pctTokens` stream: maximal runs of escape bytes are decoded
together as UTF-8 with replacement, exactly as `urllib.parse.unquote`
collects consecutive `%xx` groups before decoding.  Implemented as a
right fold carrying the byte run that starts at the current position. -/
def decodeToks (toks : List PctTok) : List Char :=
  let r := toks.foldr
    (fun t pr =>
      match t with
      | PctTok.byte b => (b :: pr.1, pr.2)
      | PctTok.lit c => (([] : List Nat), c :: (utf8DecodeReplace pr.1 ++ pr.2)))
    (([] : List Nat), ([] : List Char))
  utf8DecodeReplace r.1 ++ r.2

/-- Model of `urllib.parse.unquote` with its defaults (utf-8, replace). -/
def unquote (s : String) : String := String.mk (decodeToks (pctTokens s.data))

/-- Model of `urllib.parse.unquote_plus` as `parse_qsl` uses it: `+`
becomes a space, then percent-escapes are decoded. -/
def unquote_plus (s : String) : String :=
  unquote (String.mk (s.data.map (fun c => if c = '+' then ' ' else c)))

/-- Model of `urllib.parse.parse_qsl` with its defaults
(`keep_blank_values=False`, `strict_parsing=False`, separator `&`): empty
chunks are skipped, a chunk without `=` or with an empty value is dropped,
names and values go through `unquote_plus`. -/
def parse_qsl (qs : String) : List (String × String) :=
  (pySplitChar '&' qs).foldr
    (fun name_value acc =>
      if name_value = "" then acc
      else
        match pySplit1 "=" name_value with
        | [n, v] => if v ≠ "" then (unquote_plus n, unquote_plus v) :: acc else acc
        | _ => acc)
    []

/-- Insert one parsed pair into the ordered multi-dict `parse_qs` builds:
an existing key appends to its value list, a new key goes to the end
(Python dict insertion order). -/
def addValue : List (String × List String) → String → String → List (String × List String)
  | [], k, v => [(k, [v])]
  | (k0, vs) :: rest, k, v =>
    if k0 = k then (k0, vs ++ [v]) :: rest else (k0, vs) :: addValue rest k v

/-- Model of `urllib.parse.parse_qs`: group the `parse_qsl` pairs into an
insertion-ordered association list of value lists. -/
def parse_qs (qs : String) : List (String × List String) :=
  (parse_qsl qs).foldl (fun d kv => addValue d kv.1 kv.2) []

/-- One step of the `posixpath.normpath` component loop: skip empty and
`.` components; append a component unless it is a `..` that can pop a
previous real component. `slashes` is the count of initial slashes (0 for
the relative paths this server builds). -/
def normStep (slashes : Nat) (acc : List (List Char)) (comp : List Char) : List (List Char) :=
  if comp = [] ∨ comp = ['.'] then acc
  else if comp ≠ ['.', '.'] ∨ (slashes = 0 ∧ acc = []) ∨
      (acc ≠ [] ∧ acc.getLast? = some ['.', '.']) then acc ++ [comp]
  else if acc ≠ [] then acc.dropLast
  else acc

/-- Model of `os.path.normpath` (POSIX flavour): collapse `.` components,
resolve `..` against preceding components, preserve up to two initial
slashes, return `.` for an empty result. -/
def normpath (s : String) : String :=
  if s = "" then "."
  else
    let slashes : Nat :=
      if pyStartswith s "/" then
        (if pyStartswith s "//" && !(pyStartswith s "///") then 2 else 1)
      else 0
    let comps := splitChar '/' s.data
    let newComps := comps.foldl (normStep slashes) []
    let joined := List.replicate slashes '/' ++ intercalateChar '/' newComps
    if joined = [] then "." else String.mk joined

/-- Model of `mimetypes.guess_type`'s first component: look the file
extension up in (a fragment of) the standard table, `none` when unknown.
Only the unreachable 200 branch of `handle_get_request` consults it. -/
def guess_type (p : String) : Option String :=
  if pyEndswith p ".html" || pyEndswith p ".htm" then some "text/html"
  else if pyEndswith p ".css" then some "text/css"
  else if pyEndswith p ".js" then some "text/javascript"
  else if pyEndswith p ".json" then some "application/json"
  else if pyEndswith p ".png" then some "image/png"
  else if pyEndswith p ".jpg" || pyEndswith p ".jpeg" then some "image/jpeg"
  else if pyEndswith p ".gif" then some "image/gif"
  else if pyEndswith p ".txt" then some "text/plain"
  else none

/-- Outcome of `open(file_path, 'rb'); file.read()` for one path: the file's
bytes, `FileNotFoundError`, or `PermissionError` — the three outcomes the
source's `try`/`except` clauses distinguish.  Other I/O exceptions (e.g.
reading a directory) would escape to `handle_client`'s catch-all and send
nothing; they are outside this filesystem model. -/
inductive ReadResult where
  | ok (content : List Nat)
  | fileNotFound
  | permissionDenied
deriving DecidableEq

/-- The static file tree: what reading each path returns. -/
def FS : Type := String → ReadResult

/-- A Python value returned by a request handler: `create_response` returns
a `str`, the successful GET branch returns `bytes`. -/
inductive PyResponse where
  | pstr (s : String)
  | pbytes (b : List Nat)
deriving DecidableEq

/-- `WebServer.create_response` (src/webserver.py lines 119-127): status
line and the two fixed headers joined with CRLF, a blank line, then the
body.  `Content-Length` is `len(content)` — the *character* count of the
Python `str`. -/
def create_response (status_code : Nat) (status_text : String) (content : String) : String :=
  let headers := ["HTTP/1.1 " ++ toString status_code ++ " " ++ status_text,
                  "Content-Type: text/plain",
                  "Content-Length: " ++ toString content.length]
  pyJoin "\r\n" headers ++ "\r\n\r\n" ++ content

/-- `WebServer.handle_get_request` (lines 60-98): map `/` to `/index.html`,
join with the `./www` root, reject with 403 unless
`normpath(file_path).startswith('./www')`, otherwise read the file and
build a 200 with the file's byte length, or 404/403 on the two handled
read errors.  The 200 branch returns `bytes` (header text encoded, then
the raw file content). -/
def handle_get_request (fs : FS) (path0 : String) : PyResponse :=
  let path := if path0 = "/" then "/index.html" else path0
  let file_path := "./www" ++ path
  if !(pyStartswith (normpath file_path) "./www") then
    PyResponse.pstr (create_response 403 "Forbidden" "")
  else
    match fs file_path with
    | ReadResult.ok content =>
      let mime_type := (guess_type file_path).getD "text/plain"
      let headers := ["Content-Type: " ++ mime_type,
                      "Content-Length: " ++ toString content.length]
      let response := "HTTP/1.1 " ++ toString 200 ++ " " ++ "OK" ++ "\r\n" ++
        pyJoin "\r\n" headers ++ "\r\n\r\n"
      PyResponse.pbytes (utf8Encode response ++ content)
    | ReadResult.fileNotFound => PyResponse.pstr (create_response 404 "Not Found" "")
    | ReadResult.permissionDenied => PyResponse.pstr (create_response 403 "Forbidden" "")

/-- `request.split('\r\n\r\n', 1)[-1]` (line 103): the body is everything
after the first blank-line separator, or the whole text when there is no
separator. -/
def extract_body (request : String) : String :=
  (pySplit1 "\r\n\r\n" request).getLastD ""

/-- `WebServer.handle_post_request` (lines 100-117). -/
def handle_post_request (request path : String) : PyResponse :=
  let body := extract_body request
  let form_data := parse_qs body
  if path = "/submit" then
    let response_content :=
      form_data.foldl (fun acc kv => acc ++ kv.1 ++ ": " ++ kv.2.headD "" ++ "\n")
        "Form submitted successfully!\n"
    PyResponse.pstr (create_response 200 "OK" response_content)
  else
    PyResponse.pstr (create_response 404 "Not Found" "")

/-- Result of one `handle_client` run (lines 32-58): either a serialized
response was written with `sendall` and the socket closed, or an exception
was caught by the per-connection handler, logged with the given message,
and the socket closed in the `finally` block.  Nothing ever propagates out
of `handle_client`. -/
inductive Outcome where
  | sent (wire : List Nat)
  | errorClosed (msg : String)
deriving DecidableEq

/-- `WebServer.handle_client` (lines 32-58) on the bytes one `recv`
returned: decode as UTF-8 (strict), take the first line, strip it, split
it into whitespace tokens and unpack exactly three (a `ValueError`
otherwise), decode and query-strip the path, dispatch on the method, then
`sendall(response.encode('utf-8'))`.  When the dispatch returned `bytes`
(the successful GET branch) the `.encode` call raises `AttributeError`,
which the catch-all also converts to a logged, closed connection. -/
def handle_client (fs : FS) (raw : List Nat) : Outcome :=
  match utf8DecodeStrict raw with
  | none => Outcome.errorClosed "UnicodeDecodeError"
  | some request =>
    let request_line := pyStrip (pyFirstLine request)
    match pySplitWs request_line with
    | [method, rawPath, _] =>
      let path := unquote ((pySplitChar '?' rawPath).headD "")
      let response :=
        if method = "GET" then handle_get_request fs path
        else if method = "POST" then handle_post_request request path
        else PyResponse.pstr (create_response 405 "Method Not Allowed" "")
      match response with
      | PyResponse.pstr s => Outcome.sent (utf8Encode s)
      | PyResponse.pbytes _ => Outcome.errorClosed "AttributeError"
    | _ => Outcome.errorClosed "ValueError"

/-- The claim-side traversal condition: the normalized candidate path
`./www + path` resolves outside the static root (it is neither the
normalized root `www` itself nor below it). -/
def escapesRoot (path : String) : Bool :=
  let n := normpath ("./www" ++ path)
  !(n = "www" || pyStartswith n "www/")

/-- Observation: the status code of a serialized response — the second
whitespace token of its first line, read as a decimal number. -/
def statusCodeOf (resp : String) : Option Nat :=
  match pySplitWs (String.mk (resp.data.takeWhile (fun c => c != '\r'))) with
  | _ :: code :: _ => strToNat code
  | _ => none

/-- Observation: the header block of a serialized response (everything
before the first blank line). -/
def headerBlockOf (resp : String) : String :=
  (pySplit1 "\r\n\r\n" resp).headD ""

/-- Observation: the body of a serialized response (everything after the
first blank line, empty when there is none). -/
def bodyOf (resp : String) : String :=
  match pySplit1 "\r\n\r\n" resp with
  | [_, b] => b
  | _ => ""

/-- Drop one trailing carriage return (header lines are CRLF-terminated). -/
def stripCR (l : List Char) : List Char :=
  if l.getLast? = some '\r' then l.dropLast else l

/-- Observation: the header lines of a serialized response. -/
def headerLinesOf (resp : String) : List String :=
  (splitChar '\n' (headerBlockOf resp).data).map (fun l => String.mk (stripCR l))

/-- Observation: the value of the `Content-Length` header of a serialized
response, when present and numeric. -/
def contentLengthOf (resp : String) : Option Nat :=
  (headerLinesOf resp).findSome? (fun line =>
    if pyStartswith line "Content-Length: " then strToNat (String.mk (line.data.drop 16))
    else none)

/-- The empty static root used by concrete witnesses: every read fails with
`FileNotFoundError`. -/
def fsEmpty : FS := fun _ => ReadResult.fileNotFound

/-- A one-file static root holding `./www/index.html`, used to exhibit the
behaviour on an existing, readable file. -/
def demoFS : FS := fun p =>
  if p = "./www/index.html" then ReadResult.ok (utf8Encode "<html>Welcome</html>")
  else ReadResult.fileNotFound

/-- A received byte sequence is malformed in the sense of the error-handling
contract: it does not decode as UTF-8, or its first line does not split
into exactly three whitespace tokens. -/
def malformedRequestLine (raw : List Nat) : Bool :=
  match utf8DecodeStrict raw with
  | none => true
  | some s => (pySplitWs (pyStrip (pyFirstLine s))).length != 3

/-- Well-formedness of a component list produced by the `normpath` fold:
components are non-empty, are not `.`, and contain no slash. -/
def GoodComp (x : List Char) : Prop := x ≠ [] ∧ x ≠ ['.'] ∧ '/' ∉ x

theorem takeWhile_append_all (p : Char → Bool) (l1 l2 : List Char) (h : l1.all p = true) :
    (l1 ++ l2).takeWhile p = l1 ++ l2.takeWhile p := by
  induction l1 with
  | nil => rfl
  | cons a t ih =>
    simp only [List.all_cons, Bool.and_eq_true] at h
    simp [List.takeWhile_cons, h.1, ih h.2]

theorem splitIfChar_sepFree (p : Char → Bool) (l : List Char) :
    ∀ piece ∈ splitIfChar p l, ∀ c ∈ piece, p c = false := by
  induction l with
  | nil =>
    intro piece hp c hc
    simp only [splitIfChar, List.mem_singleton] at hp
    subst hp
    simp at hc
  | cons a rest ih =>
    intro piece hp c hc
    simp only [splitIfChar] at hp
    rcases hrec : splitIfChar p rest with _ | ⟨q, qs⟩ <;> simp only [hrec] at hp
    · simp only [List.mem_singleton] at hp
      subst hp
      simp at hc
    · by_cases hpa : p a = true
      · rw [if_pos hpa] at hp
        simp only [List.mem_cons] at hp
        rcases hp with h1 | h1 | h1
        · subst h1; simp at hc
        · exact ih piece (by rw [hrec, h1]; exact List.mem_cons_self q qs) c hc
        · exact ih piece (by rw [hrec]; exact List.mem_cons_of_mem q h1) c hc
      · rw [if_neg hpa] at hp
        simp only [List.mem_cons] at hp
        rcases hp with h1 | h1
        · subst h1
          simp only [List.mem_cons] at hc
          rcases hc with h2 | h2
          · subst h2; exact Bool.eq_false_iff.mpr hpa
          · exact ih q (by rw [hrec]; exact List.mem_cons_self q qs) c h2
        · exact ih piece (by rw [hrec]; exact List.mem_cons_of_mem q h1) c hc

theorem normStep_good (slashes : Nat) (acc : List (List Char)) (comp : List Char)
    (hacc : ∀ x ∈ acc, GoodComp x) (hcomp : '/' ∉ comp) :
    ∀ x ∈ normStep slashes acc comp, GoodComp x := by
  intro x hx
  unfold normStep at hx
  by_cases h1 : comp = [] ∨ comp = ['.']
  · rw [if_pos h1] at hx
    exact hacc x hx
  · rw [if_neg h1] at hx
    push_neg at h1
    by_cases h2 : comp ≠ ['.', '.'] ∨ (slashes = 0 ∧ acc = []) ∨
        (acc ≠ [] ∧ acc.getLast? = some ['.', '.'])
    · rw [if_pos h2] at hx
      rcases List.mem_append.mp hx with h | h
      · exact hacc x h
      · simp only [List.mem_singleton] at h
        subst h
        exact ⟨h1.1, h1.2, hcomp⟩
    · rw [if_neg h2] at hx
      by_cases h3 : acc ≠ []
      · rw [if_pos h3] at hx
        exact hacc x (List.dropLast_subset _ hx)
      · rw [if_neg h3] at hx
        exact hacc x hx

theorem foldl_normStep_good (slashes : Nat) (comps : List (List Char)) :
    ∀ acc : List (List Char), (∀ x ∈ acc, GoodComp x) → (∀ y ∈ comps, '/' ∉ y) →
      ∀ x ∈ comps.foldl (normStep slashes) acc, GoodComp x := by
  induction comps with
  | nil =>
    intro acc hacc _ x hx
    exact hacc x hx
  | cons comp rest ih =>
    intro acc hacc hcomps x hx
    simp only [List.foldl_cons] at hx
    exact ih (normStep slashes acc comp)
      (normStep_good slashes acc comp hacc (hcomps comp (List.mem_cons_self _ _)))
      (fun y hy => hcomps y (List.mem_cons_of_mem _ hy)) x hx

theorem no_dotslash_head (c tail : List Char) (hc : GoodComp c) :
    List.isPrefixOf ['.', '/'] (c ++ tail) = false := by
  obtain ⟨hne, hdot, hslash⟩ := hc
  rcases c with _ | ⟨a, t⟩
  · exact absurd rfl hne
  · by_cases ha : a = '.'
    · subst ha
      rcases t with _ | ⟨b, t2⟩
      · exact absurd rfl hdot
      · have hb : b ≠ '/' := fun hb => hslash (by simp [hb])
        have hb2 : ('/' == b) = false := beq_eq_false_iff_ne.mpr (Ne.symm hb)
        simp [List.isPrefixOf, hb2]
    · have ha2 : ('.' == a) = false := beq_eq_false_iff_ne.mpr (Ne.symm ha)
      simp [List.isPrefixOf, ha2]

theorem intercalate_no_dotslash (comps : List (List Char))
    (h : ∀ x ∈ comps, GoodComp x) :
    List.isPrefixOf ['.', '/'] (intercalateChar '/' comps) = false := by
  rcases comps with _ | ⟨c, _ | ⟨d, rest⟩⟩
  · rfl
  · have := no_dotslash_head c [] (h c (by simp))
    simpa using this
  · have := no_dotslash_head c ('/' :: intercalateChar '/' (d :: rest)) (h c (by simp))
    simpa [intercalateChar] using this

theorem normpath_no_dotslash (s : String) (hne : s ≠ "") (hsl : pyStartswith s "/" = false) :
    List.isPrefixOf ['.', '/'] (normpath s).data = false := by
  unfold normpath
  rw [if_neg hne]
  simp only [hsl, Bool.false_eq_true, if_false, List.replicate, List.nil_append]
  split
  · decide
  · apply intercalate_no_dotslash
    apply foldl_normStep_good 0 _ [] (by simp)
    intro y hy hmem
    have := splitIfChar_sepFree (fun c => c == '/') s.data y hy '/' hmem
    simp at this

theorem startswith_normpath_www (p : String) :
    pyStartswith (normpath ("./www" ++ p)) "./www" = false := by
  have hne : ("./www" ++ p) ≠ "" := by
    intro h
    have hd := congrArg String.data h
    rw [show ("./www" ++ p).data = '.' :: '/' :: 'w' :: 'w' :: 'w' :: p.data from rfl] at hd
    simp at hd
  have hsl : pyStartswith ("./www" ++ p) "/" = false := rfl
  have h2 := normpath_no_dotslash ("./www" ++ p) hne hsl
  rw [Bool.eq_false_iff]
  intro hcon
  unfold pyStartswith at hcon
  rw [List.isPrefixOf_iff_prefix] at hcon
  have h3 : ['.', '/'] <+: (normpath ("./www" ++ p)).data :=
    List.IsPrefix.trans ⟨['w', 'w', 'w'], rfl⟩ hcon
  rw [Bool.eq_false_iff] at h2
  exact h2 (List.isPrefixOf_iff_prefix.mpr h3)

/-- The `startswith('./www')` containment check fails for every request
path (`normpath` never returns a leading `./`), so every GET answer is the
403 page.  Shared by several claim proofs. -/
theorem handle_get_always_403 (fs : FS) (path0 : String) :
    handle_get_request fs path0 = PyResponse.pstr (create_response 403 "Forbidden" "") := by
  unfold handle_get_request
  simp [startswith_normpath_www]

theorem statusCodeOf_create200 (content : String) :
    statusCodeOf (create_response 200 "OK" content) = some 200 := by
  have hdata : (create_response 200 "OK" content).data =
      "HTTP/1.1 200 OK".data ++ '\r' ::
        ("\nContent-Type: text/plain\r\nContent-Length: " ++ toString content.length
          ++ "\r\n\r\n" ++ content).data := rfl
  unfold statusCodeOf
  rw [hdata, takeWhile_append_all _ _ _ (by decide), List.takeWhile_cons]
  simp only [bne_self_eq_false, Bool.false_eq_true, if_false, List.append_nil]
  decide

/-- C1: the spec promises that a GET for an existing, readable file under
the static root yields 200 with `Content-Length` equal to and body equal
to the file's bytes.  The code instead answers 403 Forbidden:
`normpath('./www/index.html')` is `'www/index.html'`, which never starts
with `'./www'`, so the containment check rejects every GET — including one
for a file that demonstrably exists in the modelled file tree. -/
theorem c1_get_existing_file_rejected :
    demoFS "./www/index.html" = ReadResult.ok (utf8Encode "<html>Welcome</html>") ∧
    normpath "./www/index.html" = "www/index.html" ∧
    pyStartswith "www/index.html" "./www" = false ∧
    handle_get_request demoFS "/index.html" = PyResponse.pstr (create_response 403 "Forbidden" "") ∧
    statusCodeOf (create_response 403 "Forbidden" "") = some 403 :=
  ⟨by decide, by decide, by decide, by decide, by decide⟩

/-- C2: the claim that every produced response carries a `Content-Length`
equal to the byte length of its body fails: `create_response` measures
`len(content)` on the Python `str` (character count) while the body is
sent UTF-8-encoded.  For the POST `/submit` body `name=é` the server sends
a response whose header says 37 while the encoded body is 38 bytes. -/
theorem c2_content_length_mismatch :
    handle_client fsEmpty (utf8Encode "POST /submit HTTP/1.1\r\n\r\nname=é") =
      Outcome.sent (utf8Encode (create_response 200 "OK" "Form submitted successfully!\nname: é\n")) ∧
    contentLengthOf (create_response 200 "OK" "Form submitted successfully!\nname: é\n") = some 37 ∧
    (utf8Encode (bodyOf (create_response 200 "OK" "Form submitted successfully!\nname: é\n"))).length = 38 :=
  ⟨by decide, by decide, by decide⟩

/-- C3: for every GET path whose normalized candidate filesystem path
resolves outside the static root, the response is the 403 Forbidden page,
whose body is empty — in particular no file content is returned (the
response does not depend on the file tree at all). -/
theorem c3_traversal_rejected (fs : FS) (path : String) (h : escapesRoot path = true) :
    handle_get_request fs path = PyResponse.pstr (create_response 403 "Forbidden" "") ∧
    statusCodeOf (create_response 403 "Forbidden" "") = some 403 ∧
    bodyOf (create_response 403 "Forbidden" "") = "" :=
  ⟨handle_get_always_403 fs path, by decide, by decide⟩

theorem c3_witness :
    escapesRoot "/../../etc/passwd" = true ∧
    (handle_get_request fsEmpty "/../../etc/passwd" = PyResponse.pstr (create_response 403 "Forbidden" "") ∧
     statusCodeOf (create_response 403 "Forbidden" "") = some 403 ∧
     bodyOf (create_response 403 "Forbidden" "") = "") :=
  ⟨by decide, c3_traversal_rejected fsEmpty "/../../etc/passwd" (by decide)⟩

/-- C4: re-parsing a serialized response does give back the status code,
but the recovered `Content-Length` does not equal the byte length of the
serialized body: for the POST `/submit` body `city=Zürich` the server
builds a response whose header block re-parses to status 200 and
`Content-Length` 42 while the serialized body is 43 bytes. -/
theorem c4_roundtrip_content_length_mismatch :
    handle_post_request "POST /submit HTTP/1.1\r\n\r\ncity=Zürich" "/submit" =
      PyResponse.pstr (create_response 200 "OK" "Form submitted successfully!\ncity: Zürich\n") ∧
    statusCodeOf (create_response 200 "OK" "Form submitted successfully!\ncity: Zürich\n") = some 200 ∧
    contentLengthOf (create_response 200 "OK" "Form submitted successfully!\ncity: Zürich\n") = some 42 ∧
    (utf8Encode (bodyOf (create_response 200 "OK" "Form submitted successfully!\ncity: Zürich\n"))).length = 43 :=
  ⟨by decide, by decide, by decide, by decide⟩

/-- C5: a POST request to `/submit` whose body is `name=Ada&name=Lovelace`
is answered 200 with the confirmation line followed by `name: Ada` — one
line per form field in first-encountered order, each carrying only the
first value of a repeated key. -/
theorem c5_submit_first_value (fs : FS) (raw : List Nat) (s ver : String)
    (hdec : utf8DecodeStrict raw = some s)
    (htok : pySplitWs (pyStrip (pyFirstLine s)) = ["POST", "/submit", ver])
    (hbody : extract_body s = "name=Ada&name=Lovelace") :
    handle_client fs raw =
      Outcome.sent (utf8Encode (create_response 200 "OK" "Form submitted successfully!\nname: Ada\n")) := by
  unfold handle_client
  simp only [hdec, htok]
  rw [if_neg (by decide : ¬ (("POST" : String) = "GET"))]
  simp only [if_true]
  simp only [handle_post_request, hbody]
  decide

theorem c5_witness :
    handle_client fsEmpty (utf8Encode "POST /submit HTTP/1.1\r\nHost: a\r\n\r\nname=Ada&name=Lovelace") =
      Outcome.sent (utf8Encode (create_response 200 "OK" "Form submitted successfully!\nname: Ada\n")) :=
  c5_submit_first_value fsEmpty _ "POST /submit HTTP/1.1\r\nHost: a\r\n\r\nname=Ada&name=Lovelace"
    "HTTP/1.1" (by decide) (by decide) (by decide)

/-- C6: for any file tree, the GET response for `/` is identical to the
GET response for `/index.html` (the handler rewrites `/` to `/index.html`
before building the candidate path). -/
theorem c6_root_equals_index (fs : FS) :
    handle_get_request fs "/" = handle_get_request fs "/index.html" := rfl

/-- C7: whenever the received bytes do not decode as UTF-8, or the first
request line does not split into exactly three whitespace tokens, the
per-connection handler ends in the caught-logged-closed outcome (the
`except`/`finally` of `handle_client`); the failure never propagates. -/
theorem c7_malformed_handled (fs : FS) (raw : List Nat)
    (h : malformedRequestLine raw = true) :
    ∃ msg, handle_client fs raw = Outcome.errorClosed msg := by
  unfold malformedRequestLine at h
  unfold handle_client
  rcases hdec : utf8DecodeStrict raw with _ | s
  · simp only [hdec]
    exact ⟨"UnicodeDecodeError", rfl⟩
  · simp only [hdec] at h ⊢
    rcases htok : pySplitWs (pyStrip (pyFirstLine s)) with _ | ⟨m, _ | ⟨p2, _ | ⟨v, _ | ⟨x, tl⟩⟩⟩⟩ <;>
      simp only [htok] at h ⊢
    · exact ⟨"ValueError", rfl⟩
    · exact ⟨"ValueError", rfl⟩
    · exact ⟨"ValueError", rfl⟩
    · simp at h
    · exact ⟨"ValueError", rfl⟩

theorem c7_witness :
    ∃ msg, handle_client fsEmpty (utf8Encode "GET /\r\n\r\n") = Outcome.errorClosed msg :=
  c7_malformed_handled fsEmpty (utf8Encode "GET /\r\n\r\n") (by decide)

/-- C8: a well-formed request line whose method is neither GET nor POST is
answered with the 405 response whose reason is `Method Not Allowed`. -/
theorem c8_unknown_method_405 (fs : FS) (raw : List Nat) (s method rawPath ver : String)
    (hdec : utf8DecodeStrict raw = some s)
    (htok : pySplitWs (pyStrip (pyFirstLine s)) = [method, rawPath, ver])
    (hget : method ≠ "GET") (hpost : method ≠ "POST") :
    handle_client fs raw = Outcome.sent (utf8Encode (create_response 405 "Method Not Allowed" "")) := by
  unfold handle_client
  simp only [hdec, htok]
  rw [if_neg hget, if_neg hpost]

theorem c8_witness :
    handle_client fsEmpty (utf8Encode "PUT / HTTP/1.1\r\n\r\n") =
      Outcome.sent (utf8Encode (create_response 405 "Method Not Allowed" "")) :=
  c8_unknown_method_405 fsEmpty _ "PUT / HTTP/1.1\r\n\r\n" "PUT" "/" "HTTP/1.1"
    (by decide) (by decide) (by decide) (by decide)

/-- C9: every response the server actually sends is the UTF-8 encoding of
a serialized response whose status code is one of 200, 403, 404, 405. -/
theorem c9_status_codes (fs : FS) (raw wire : List Nat)
    (h : handle_client fs raw = Outcome.sent wire) :
    ∃ resp c, wire = utf8Encode resp ∧ statusCodeOf resp = some c ∧
      (c = 200 ∨ c = 403 ∨ c = 404 ∨ c = 405) := by
  unfold handle_client at h
  rcases hdec : utf8DecodeStrict raw with _ | s
  · simp only [hdec] at h
    cases h
  · simp only [hdec] at h
    rcases htok : pySplitWs (pyStrip (pyFirstLine s)) with _ | ⟨m, _ | ⟨p2, _ | ⟨v, _ | ⟨x, tl⟩⟩⟩⟩ <;>
      simp only [htok] at h
    case cons.cons.cons.nil =>
      by_cases hm : m = "GET"
      · rw [if_pos hm, handle_get_always_403] at h
        injection h with hw
        exact ⟨create_response 403 "Forbidden" "", 403, hw.symm, by decide, by simp⟩
      · by_cases hp : m = "POST"
        · rw [if_neg hm, if_pos hp] at h
          unfold handle_post_request at h
          by_cases hsub : unquote ((pySplitChar '?' p2).headD "") = "/submit"
          · rw [if_pos hsub] at h
            injection h with hw
            exact ⟨_, 200, hw.symm, statusCodeOf_create200 _, by simp⟩
          · rw [if_neg hsub] at h
            injection h with hw
            exact ⟨create_response 404 "Not Found" "", 404, hw.symm, by decide, by simp⟩
        · rw [if_neg hm, if_neg hp] at h
          injection h with hw
          exact ⟨create_response 405 "Method Not Allowed" "", 405, hw.symm, by decide, by simp⟩
    all_goals cases h

theorem c9_witness :
    ∃ resp c, utf8Encode (create_response 405 "Method Not Allowed" "") = utf8Encode resp ∧
      statusCodeOf resp = some c ∧ (c = 200 ∨ c = 403 ∨ c = 404 ∨ c = 405) :=
  c9_status_codes fsEmpty (utf8Encode "DELETE / HTTP/1.1\r\n\r\n") _ (by decide)

/-- C10: a POST request whose raw text contains no CRLFCRLF separator has
its entire raw text (request line and headers included) taken as the form
body: `split('\r\n\r\n', 1)[-1]` returns the whole string, which is then
parsed as url-encoded pairs rather than being treated as empty. -/
theorem c10_no_separator_whole_body (request : String)
    (h : findSub "\r\n\r\n".data request.data = none) :
    extract_body request = request ∧
    handle_post_request request "/submit" =
      PyResponse.pstr (create_response 200 "OK"
        ((parse_qs request).foldl (fun acc kv => acc ++ kv.1 ++ ": " ++ kv.2.headD "" ++ "\n")
          "Form submitted successfully!\n")) := by
  have hb : extract_body request = request := by
    unfold extract_body pySplit1
    rw [h]
    rfl
  refine ⟨hb, ?_⟩
  unfold handle_post_request
  rw [hb]
  rfl

theorem c10_witness :
    extract_body "POST /submit HTTP/1.1\r\nHost: a=b" = "POST /submit HTTP/1.1\r\nHost: a=b" ∧
    handle_post_request "POST /submit HTTP/1.1\r\nHost: a=b" "/submit" =
      PyResponse.pstr (create_response 200 "OK"
        ((parse_qs "POST /submit HTTP/1.1\r\nHost: a=b").foldl
          (fun acc kv => acc ++ kv.1 ++ ": " ++ kv.2.headD "" ++ "\n")
          "Form submitted successfully!\n")) :=
  c10_no_separator_whole_body _ (by decide)
